import Mathlib

/-!
# MT-Wallet backend — verification of the transaction normalization pipeline

Shallow embedding of the MT-Wallet backend (TypeScript/Express) into Lean 4:

* `src/services/currency.ts` — exchange-rate fetching/inversion, `convertToINR`,
  `isForeignCurrency`;
* `src/routes/import.ts` — `parseAccount`, `parseAmount`, `parseDateTime`,
  `axioCategoryToSlug`, the Axio CSV row loop;
* `src/routes/sms.ts` — the per-message SMS ingest loop;
* `src/services/supabase.ts` — `insertTransaction` (dedup-conflict reclassification),
  `getCategoryIdBySlug`;
* `src/schemas/transaction.ts` — request-shape validation.

JavaScript numbers are modelled as `ℚ` (all amounts and rates in the program
arise from decimal literals and the four arithmetic operations, where binary
floating point is out of scope for the stated claims); `NaN` and `undefined`,
which matter for `parseDateTime`, are modelled explicitly by the `JsNum` type.
Strings are processed as `List Char`; the JS string primitives used by the code
(`trim`, `split`, `includes`, `toLowerCase`, `toUpperCase`, `padStart`,
`parseFloat`, `Number`, `replace` with the specific regexes appearing in the
source) are given faithful executable models below.
-/

namespace MTWallet

/-! ## JS string and number primitives -/

/-- JS whitespace class `\s` restricted to the characters that can occur in the
inputs handled here (space, tab, LF, CR, vertical tab, form feed).  Used by
`trim`, and by the `\s` regex class. -/
def isSpaceChar (c : Char) : Bool :=
  c = ' ' || c = '\t' || c = '\n' || c = '\r' || c = '\x0b' || c = '\x0c'

/-- JS `\w` word-character class: `[A-Za-z0-9_]` (ASCII only). -/
def isWordChar (c : Char) : Bool :=
  ('a' ≤ c && c ≤ 'z') || ('A' ≤ c && c ≤ 'Z') || ('0' ≤ c && c ≤ '9') || c = '_'

/-- JS `\d` digit class `[0-9]`. -/
def isDigitChar (c : Char) : Bool :=
  '0' ≤ c && c ≤ '9'

/-- `String.prototype.trim` on the character-list view: drop whitespace from
both ends. -/
def jsTrimL (l : List Char) : List Char :=
  ((l.dropWhile isSpaceChar).reverse.dropWhile isSpaceChar).reverse

def jsTrim (s : String) : String :=
  String.mk (jsTrimL s.toList)

/-- `String.prototype.toLowerCase` (the inputs involved are ASCII). -/
def jsToLower (s : String) : String := String.mk (s.toList.map Char.toLower)

/-- `String.prototype.toUpperCase` (the inputs involved are ASCII). -/
def jsToUpper (s : String) : String := String.mk (s.toList.map Char.toUpper)

/-- Does `needle` occur (contiguously) in `hay`?  Model of JS
`String.prototype.includes`. -/
def startsWithL : List Char → List Char → Bool
  | [], _ => true
  | _ :: _, [] => false
  | a :: as, b :: bs => a = b && startsWithL as bs

def hasSub (needle : List Char) : List Char → Bool
  | [] => needle.isEmpty
  | c :: cs => startsWithL needle (c :: cs) || hasSub needle cs

/-- `String.prototype.split` with a single-character separator (JS semantics:
splitting the empty string yields `[""]`, consecutive separators yield empty
fields). -/
def splitOnChar (sep : Char) : List Char → List (List Char)
  | [] => [[]]
  | c :: cs =>
    let r := splitOnChar sep cs
    if c = sep then [] :: r
    else
      match r with
      | [] => [[c]]
      | h :: t => (c :: h) :: t

/-- `String.prototype.padStart(n, c)`. -/
def padStart (n : Nat) (c : Char) (s : String) : String :=
  if n ≤ s.length then s
  else String.mk (List.replicate (n - s.length) c) ++ s

/-- JS `x || y` for an optional string `x` (both `undefined`/`null` and the
empty string are falsy). -/
def jsOrStr (x : Option String) (y : String) : String :=
  match x with
  | some s => if s = "" then y else s
  | none => y

/-- JS `x || null` for an optional string (collapses the empty string to null). -/
def jsOrNullStr (x : Option String) : Option String :=
  match x with
  | some s => if s = "" then none else some s
  | none => none

/-! ### Numeric literal parsing (JS `parseFloat` and `Number`)

`parseNumCore` consumes a decimal literal prefix
`[+|-] (digits [. digits*] | . digits+) [(e|E) [+|-] digits+]`
and returns its exact rational value together with the unconsumed remainder.
(The `Infinity` literal and hex/octal/binary `Number` forms do not arise from
the inputs relevant here and are not modelled; they map to "no parse".) -/

def digitVal (c : Char) : ℕ := c.toNat - '0'.toNat

def intOfDigits (l : List Char) : ℕ :=
  l.foldl (fun acc c => acc * 10 + digitVal c) 0

/-- Split off the longest prefix satisfying `p`. -/
def splitPrefix (p : Char → Bool) (l : List Char) : List Char × List Char :=
  (l.takeWhile p, l.dropWhile p)

/-- Optional exponent part `(e|E) [+|-] digits+`; returns the signed exponent
and the remainder (if the digits are missing, the exponent is not consumed). -/
def parseExpPart (l : List Char) : Option ℤ × List Char :=
  match l with
  | c :: rest =>
    if c = 'e' ∨ c = 'E' then
      let (sign, rest1) :=
        match rest with
        | '-' :: r => ((-1 : ℤ), r)
        | '+' :: r => ((1 : ℤ), r)
        | _ => ((1 : ℤ), rest)
      let (ds, rest2) := splitPrefix isDigitChar rest1
      if ds = [] then (none, l)
      else (some (sign * (intOfDigits ds : ℤ)), rest2)
    else (none, l)
  | [] => (none, l)

/-- Consume a decimal literal prefix
`[+|-] (digits [. digits*] | . digits+) [(e|E) [+|-] digits+]`; `none` when no
prefix forms a number.  The value `±intpart.fracpart × 10^exp` is assembled
with `mkRat` directly from the digit strings. -/
def parseNumCore (l : List Char) : Option (ℚ × List Char) :=
  let (sign, l1) :=
    match l with
    | '-' :: r => ((-1 : ℤ), r)
    | '+' :: r => ((1 : ℤ), r)
    | _ => ((1 : ℤ), l)
  let (intDs, l2) := splitPrefix isDigitChar l1
  let (fracDs, l3) :=
    match l2 with
    | '.' :: r => splitPrefix isDigitChar r
    | _ => ([], l2)
  -- when digits follow the dot we also consumed the dot
  if intDs = [] ∧ fracDs = [] then none
  else
    let mantNum : ℤ :=
      sign * ((intOfDigits intDs * 10 ^ fracDs.length + intOfDigits fracDs : ℕ) : ℤ)
    let mantDen : ℕ := 10 ^ fracDs.length
    match parseExpPart l3 with
    | (some e, l4) =>
      if 0 ≤ e then some (mkRat (mantNum * ((10 ^ e.toNat : ℕ) : ℤ)) mantDen, l4)
      else some (mkRat mantNum (mantDen * 10 ^ (-e).toNat), l4)
    | (none, l4) => some (mkRat mantNum mantDen, l4)

/-- JS `parseFloat`: leading whitespace skipped, longest numeric prefix,
`none` models `NaN`. -/
def parseFloatQ (l : List Char) : Option ℚ :=
  match parseNumCore (l.dropWhile isSpaceChar) with
  | some (q, _) => some q
  | none => none

/-- JS `Math.abs` on finite numbers. -/
def jsAbs (q : ℚ) : ℚ := if q < 0 then -q else q

/-- A JS numeric value as it flows through `parseDateTime`: a finite number,
`NaN`, or `undefined` (from destructuring a too-short array). -/
inductive JsNum where
  | val (q : ℚ)
  | nan
  | undef
deriving DecidableEq, Repr

/-- JS `Number(s)` on a string: trimmed-empty is `0`, otherwise the entire
string must be a numeric literal, else `NaN`. -/
def jsNumber (s : String) : JsNum :=
  let t := jsTrimL s.toList
  if t = [] then .val 0
  else
    match parseNumCore t with
    | some (q, []) => .val q
    | _ => .nan

/-- Decimal digits of the fractional part `n/den` (`0 ≤ n < den`), produced by
long division, with fuel (every rational printed here has a power-of-ten
denominator, for which `den` steps of fuel are more than enough; JS's
shortest-roundtrip printing of non-terminating expansions is out of scope for
the inputs at hand). -/
def fracDigitChars : ℕ → ℕ → ℕ → List Char
  | 0, _, _ => []
  | fuel + 1, n, den =>
    if n = 0 then []
    else Nat.digitChar (n * 10 / den) :: fracDigitChars fuel (n * 10 % den) den

/-- JS number-to-string for the finite values arising here: sign, integer part,
and (when nonzero) the fractional digit expansion. -/
def qToString (q : ℚ) : String :=
  let s := if q < 0 then "-" else ""
  let na := q.num.natAbs
  let ip := na / q.den
  let fr := na % q.den
  s ++ toString ip ++
    (if fr = 0 then "" else "." ++ String.mk (fracDigitChars q.den fr q.den))

/-- JS `String(x)` for the values reaching the template literal in
`parseDateTime`. -/
def jsNumToString : JsNum → String
  | .val q => qToString q
  | .nan => "NaN"
  | .undef => "undefined"

/-! ## Currency converter (`src/services/currency.ts`) -/

/-- A JSON value in the rate table returned by the rate source; the code
guards with `typeof rate === "number"`. -/
inductive JsVal where
  | num (q : ℚ)
  | nonnum
deriving DecidableEq, Repr

/-- `FALLBACK_RATES` from `currency.ts`. -/
def FALLBACK_RATES : String → Option ℚ := fun c =>
  if c = "INR" then some 1
  else if c = "USD" then some 83
  else if c = "EUR" then some 90
  else if c = "GBP" then some 105
  else if c = "AED" then some 22.6
  else if c = "SGD" then some 62
  else if c = "JPY" then some 0.55
  else if c = "CAD" then some 61
  else if c = "AUD" then some 54
  else none

/-- The rate-object construction inside `fetchExchangeRates`, folding the
source's `Object.entries(data.rates)` over the initial object `{ INR: 1 }`:
each entry whose value is a number `> 0` stores the inverted rate `1/rate`;
other entries are ignored.  The resulting JS object is modelled as a lookup
function. -/
def ratesFold (init : String → Option ℚ) (entries : List (String × JsVal)) :
    String → Option ℚ :=
  entries.foldl
    (fun m e =>
      match e.2 with
      | .num q => if 0 < q then (fun k => if k = e.1 then some (1 / q) else m k) else m
      | .nonnum => m)
    init

/-- `fetchExchangeRates` success path: invert the source table over `{INR: 1}`. -/
def ratesOfEntries (entries : List (String × JsVal)) : String → Option ℚ :=
  ratesFold (fun k => if k = "INR" then some (1 : ℚ) else none) entries

/-- JS `a || b` where `a` is a looked-up number (`0` and `undefined` are
falsy). -/
def jsOrNum (a b : Option ℚ) : Option ℚ :=
  match a with
  | some q => if q = 0 then b else some q
  | none => b

/-- JS `Math.round` (round half toward +∞). -/
def jsRound (q : ℚ) : ℤ := (q + 1/2).floor

/-- `Math.round(x * 100) / 100` — round to 2 decimal places. -/
def round2 (q : ℚ) : ℚ := (jsRound (q * 100) : ℚ) / 100

/-- `convertToINR(amount, currency)`.  The cached/fetched rate table consulted
by `getExchangeRates()` is passed in as `rates` (the claims here do not depend
on the cache's age).  Returns `(amountINR, rate)`. -/
def convertToINR (amount : ℚ) (currency : String) (rates : String → Option ℚ) :
    ℚ × ℚ :=
  let currencyUpper := jsToUpper currency
  if currencyUpper = "INR" then (amount, 1)
  else
    match jsOrNum (rates currencyUpper) (FALLBACK_RATES currencyUpper) with
    | none => (amount, 1)
    | some rate =>
      if rate = 0 then (amount, 1)     -- `if (!rate)`: 0 is falsy
      else (round2 (amount * rate), rate)

/-- `isForeignCurrency(currency)`: null/undefined/empty are not foreign;
otherwise foreign iff the uppercased code differs from `"INR"`. -/
def isForeignCurrency (currency : Option String) : Bool :=
  match currency with
  | none => false
  | some s => if s = "" then false else jsToUpper s ≠ "INR"

/-! ## Axio CSV parsers (`src/routes/import.ts`) -/

/-- Result of `parseAccount`. -/
structure AccountInfo where
  payment_method : Option String
  account_last4 : Option String
  bank_name : Option String
deriving DecidableEq, Repr

/-- Matcher for the anchored account regexes.  With `keyword = some kw`
(lowercase) it models `/^(\w+)\s+<kw>\s+(\d{4})$/i`; with `keyword = none` it
models `/^(\w+)\s+(\d{4})$/`.  Because `\w`, `\s` and `\d` are pairwise
disjoint classes and the keyword consists of word characters, the regex match
is equivalent to this deterministic maximal-munch scan; on success it returns
the two capture groups. -/
def matchAccountPattern (keyword : Option (List Char)) (l : List Char) :
    Option (List Char × List Char) :=
  let (w, rest) := splitPrefix isWordChar l
  if w = [] then none
  else
    let (s1, rest1) := splitPrefix isSpaceChar rest
    if s1 = [] then none
    else
      let afterKw? : Option (List Char) :=
        match keyword with
        | none => some rest1
        | some kw =>
          if (rest1.take kw.length).map Char.toLower = kw then
            let rest2 := rest1.drop kw.length
            let (s2, rest3) := splitPrefix isSpaceChar rest2
            if s2 = [] then none else some rest3
          else none
      match afterKw? with
      | none => none
      | some ds =>
        if ds.length = 4 ∧ ds.all isDigitChar then some (w, ds) else none

/-- `parseAccount(account)`: ordered pattern rules, first match wins. -/
def parseAccount (account : String) : AccountInfo :=
  if account = "" then ⟨none, none, none⟩
  else
    let acc := jsTrimL account.toList
    let lower := acc.map Char.toLower
    if hasSub "cash".toList lower then ⟨some "other", none, none⟩
    else if hasSub "amazon pay".toList lower then ⟨some "wallet", none, some "Amazon Pay"⟩
    else if hasSub "simpl".toList lower then ⟨some "wallet", none, some "Simpl"⟩
    else
      match matchAccountPattern (some "credit".toList) acc with
      | some (w, d) => ⟨some "card", some (String.mk d), some (String.mk w ++ " Bank")⟩
      | none =>
        match matchAccountPattern (some "debit".toList) acc with
        | some (w, d) => ⟨some "card", some (String.mk d), some (String.mk w ++ " Bank")⟩
        | none =>
          match matchAccountPattern none acc with
          | some (w, d) => ⟨some "upi", some (String.mk d), some (String.mk w ++ " Bank")⟩
          | none => ⟨none, none, none⟩

/-- `parseAmount(amountStr)`: empty string is `0`; otherwise remove commas,
single quotes and whitespace (the subsequent replace of a leading quote-minus
pair by a bare minus can never fire, all quotes being already removed, but is
modelled anyway), `parseFloat`
the remainder, and return its absolute value (`NaN` parses to `0`). -/
def parseAmount (amountStr : String) : ℚ :=
  if amountStr = "" then 0
  else
    let cleaned := amountStr.toList.filter
      (fun c => ¬(c = ',' ∨ c = '\'' ∨ isSpaceChar c))
    let cleaned2 :=
      match cleaned with
      | '\'' :: '-' :: rest => '-' :: rest
      | _ => cleaned
    match parseFloatQ cleaned2 with
    | some q => jsAbs q
    | none => 0

/-- `parseDateTime(date, time)`.  The body performs, in JS:
`[timePart, ampm] = time.trim().split(" ")`,
`[hours, minutes] = timePart.split(":").map(Number)`, the AM/PM adjustment,
`padStart(2, "0")` of `String(hours)`/`String(minutes)`, and assembles
`` `${date}T${h}:${m}:00+05:30` ``.  None of these operations can throw on
string inputs, so the `catch` branch (`` `${date}T00:00:00+05:30` ``) is
unreachable and the model is the `try` body alone; `undefined` (missing
minutes / missing AM-PM token) and `NaN` flow through `String(...)` as JS
evaluates them. -/
def parseDateTime (date time : String) : String :=
  let parts := splitOnChar ' ' (jsTrimL time.toList)
  let timePart := parts.headD []
  let ampm : Option (List Char) := parts[1]?
  let comps := (splitOnChar ':' timePart).map (fun l => jsNumber (String.mk l))
  let hours0 := comps.headD (.val 0)
  let minutes := (comps[1]?).getD JsNum.undef
  let ampmU : Option String := ampm.map (fun l => jsToUpper (String.mk l))
  -- `if (ampm?.toUpperCase() === "PM" && hours !== 12) hours += 12;`
  let hours1 :=
    if ampmU = some "PM" ∧ hours0 ≠ .val 12 then
      match hours0 with
      | .val q => JsNum.val (q + 12)
      | _ => JsNum.nan
    else hours0
  -- `if (ampm?.toUpperCase() === "AM" && hours === 12) hours = 0;`
  let hours2 :=
    if ampmU = some "AM" ∧ hours1 = .val 12 then JsNum.val 0 else hours1
  let h := padStart 2 '0' (jsNumToString hours2)
  let m := padStart 2 '0' (jsNumToString minutes)
  date ++ "T" ++ h ++ ":" ++ m ++ ":00+05:30"

/-- `AXIO_CATEGORY_OVERRIDES` and `axioCategoryToSlug`: trim-uppercase, check
the override table, else lowercase and replace whitespace runs (`/\s+/g`) with
hyphens. -/
def collapseSpacesToHyphens : List Char → List Char
  | [] => []
  | c :: cs =>
    if isSpaceChar c then '-' :: collapseSpacesToHyphens (cs.dropWhile isSpaceChar)
    else c :: collapseSpacesToHyphens cs
termination_by l => l.length
decreasing_by
  · exact Nat.lt_succ_of_le ((List.dropWhile_sublist _).length_le)
  · exact Nat.lt_succ_of_le (Nat.le_refl _)

def axioCategoryToSlug (axioCategory : String) : String :=
  let upper := jsToUpper (jsTrim axioCategory)
  if upper = "FOOD & DRINKS" then "food"
  else String.mk (collapseSpacesToHyphens (jsToLower upper).toList)

/-! ## Data model (`src/types/index.ts`, `src/schemas/transaction.ts`) -/

inductive Direction where
  | credit
  | debit
deriving DecidableEq, Repr

structure SMSMessage where
  id : ℤ
  sender : String
  body : String
  timestamp : Option String
deriving DecidableEq, Repr

structure Category where
  id : String
  slug : String
  name : String
deriving DecidableEq, Repr

/-- An Extraction Candidate as validated by `ParsedTransactionSchema` /
`TransactionOutputSchema`: optional fields are `Option`s, `direction` is the
`credit|debit` enum. -/
structure ParsedTransaction where
  sms_id : ℤ
  is_transaction : Bool
  amount : Option ℚ
  currency : Option String
  direction : Option Direction
  merchant : Option String
  payment_method : Option String
  account_last4 : Option String
  bank_name : Option String
  reference_id : Option String
  category_slug : Option String
  is_expense : Option Bool
  is_income : Option Bool
  skip_reason : Option String
deriving DecidableEq, Repr

/-- The record handed to the transaction store (`transactionData` in
`sms.ts` / `import.ts`).  The SMS path fills `raw_sms`/`sms_id`/`sms_sender`;
the CSV path leaves them null and fills `notes`. -/
structure TransactionInsert where
  user_id : String
  amount : ℚ
  direction : Direction
  transacted_at : String
  merchant : Option String
  merchant_normalized : Option String
  payment_method : Option String
  account_last4 : Option String
  bank_name : Option String
  reference_id : Option String
  raw_sms : Option String
  sms_id : Option ℤ
  sms_sender : Option String
  source : String
  category_id : Option String
  notes : Option String
  original_amount : Option ℚ
  original_currency : Option String
  is_expense : Bool
  is_income : Bool
deriving DecidableEq, Repr

/-- `IngestRequestSchema` input (already shaped; the schema's only value
constraint beyond the field shapes is `api_key: z.string().min(1)` — the
`messages` array carries no minimum-length constraint). -/
structure IngestRequest where
  messages : List SMSMessage
  api_key : String
deriving DecidableEq, Repr

/-- `IngestRequestSchema.safeParse` success predicate on a shaped request. -/
def ingestRequestValid (r : IngestRequest) : Bool :=
  1 ≤ r.api_key.length

/-! ## Transaction Store (`src/services/supabase.ts`) -/

/-- The store's reply to one insert/upsert, as seen by the caller: success, or
an error carrying a Postgres error code and message.  Code `"23505"` is
`unique_violation` — here, a conflict on the `(user_id, sms_id)` dedup key. -/
inductive StoreReply where
  | ok
  | err (code : String) (message : String)
deriving DecidableEq, Repr

structure InsertResult where
  success : Bool
  error : Option String
deriving DecidableEq, Repr

/-- `insertTransaction`: an error with code `"23505"` (duplicate on the
`user_id,sms_id` conflict target) is reclassified as success; any other error
is a failure carrying the store's message. -/
def insertTransaction (store : TransactionInsert → StoreReply)
    (transaction : TransactionInsert) : InsertResult :=
  match store transaction with
  | .ok => ⟨true, none⟩
  | .err code msg => if code = "23505" then ⟨true, none⟩ else ⟨false, some msg⟩

/-- `getCategoryIdBySlug`: case-insensitive first match; `category?.id || null`
collapses a (hypothetically empty) id to null. -/
def getCategoryIdBySlug (slug : Option String) (categories : List Category) :
    Option String :=
  match slug with
  | none => none
  | some s =>
    if s = "" then none
    else
      match categories.find? (fun c => jsToLower c.slug = jsToLower s) with
      | some c => if c.id = "" then none else some c.id
      | none => none

/-! ## SMS ingest pipeline (`src/routes/sms.ts`) -/

inductive Status where
  | inserted
  | skipped
  | error
deriving DecidableEq, Repr

structure TxnSummary where
  amount : ℚ
  direction : Direction
  merchant : Option String
  category : Option String
deriving DecidableEq, Repr

/-- One entry of the response's `details` list (`ParsedTransactionResult`). -/
structure Detail where
  sms_id : ℤ
  status : Status
  reason : Option String
  transaction : Option TxnSummary
deriving DecidableEq, Repr

/-- Per-batch context: the resolved user, their category vocabulary, the
exchange-rate table in effect, the clock reading used for `new Date()`
fallbacks, and the transaction store. -/
structure IngestCtx where
  user_id : String
  categories : List Category
  rates : String → Option ℚ
  nowIso : String
  store : TransactionInsert → StoreReply

/-- `new Map(parsed.map(p => [p.sms_id, p]))`: a JS `Map` built from entries
keeps, per key, the **last** entry. -/
def buildParsedMap (parsed : List ParsedTransaction) : ℤ → Option ParsedTransaction :=
  fun i => parsed.reverse.find? (fun p => p.sms_id = i)

/-- The `transactionData` record built in the loop body of `/ingest`, for a
candidate that passed the required-field checks (`amount = some a`,
`direction = some dir`). -/
def buildSmsTxn (ctx : IngestCtx) (msg : SMSMessage) (txn : ParsedTransaction)
    (a : ℚ) (dir : Direction) : TransactionInsert :=
  let currency := jsOrStr txn.currency "INR"
  let conv : ℚ × Option ℚ × Option String :=
    if isForeignCurrency (some currency) then
      ((convertToINR a currency ctx.rates).1, some a, some (jsToUpper currency))
    else (a, none, none)
  { user_id := ctx.user_id
    amount := conv.1
    direction := dir
    transacted_at := jsOrStr msg.timestamp ctx.nowIso
    merchant := jsOrNullStr txn.merchant
    merchant_normalized := jsOrNullStr txn.merchant
    payment_method := jsOrNullStr txn.payment_method
    account_last4 := jsOrNullStr txn.account_last4
    bank_name := jsOrNullStr txn.bank_name
    reference_id := jsOrNullStr txn.reference_id
    raw_sms := some msg.body
    sms_id := some msg.id
    sms_sender := some msg.sender
    source := "sms"
    category_id := getCategoryIdBySlug txn.category_slug ctx.categories
    notes := none
    original_amount := conv.2.1
    original_currency := conv.2.2
    is_expense := if dir = .debit then txn.is_expense.getD true else false
    is_income := if dir = .credit then txn.is_income.getD true else false }

/-- The body of `for (const msg of messages)` in `/ingest`, producing the
per-message detail entry and the store call made, if any. -/
def processMessage (ctx : IngestCtx) (parsedMap : ℤ → Option ParsedTransaction)
    (msg : SMSMessage) : Detail × Option TransactionInsert :=
  match parsedMap msg.id with
  | none => (⟨msg.id, .skipped, some "No AI result for this message", none⟩, none)
  | some txn =>
    if ¬txn.is_transaction then
      (⟨msg.id, .skipped, some (jsOrStr txn.skip_reason "Not a transaction"), none⟩, none)
    else
      -- `if (!txn.amount || !txn.direction)`: absent or 0 amount, absent direction
      match txn.amount, txn.direction with
      | some a, some dir =>
        if a = 0 then
          (⟨msg.id, .skipped, some "Missing amount or direction", none⟩, none)
        else
          if (insertTransaction ctx.store (buildSmsTxn ctx msg txn a dir)).success then
            (⟨msg.id, .inserted, none,
              some ⟨a, dir, jsOrNullStr txn.merchant, jsOrNullStr txn.category_slug⟩⟩,
             some (buildSmsTxn ctx msg txn a dir))
          else
            (⟨msg.id, .error,
              some (jsOrStr (insertTransaction ctx.store (buildSmsTxn ctx msg txn a dir)).error
                "Insert failed"), none⟩,
             some (buildSmsTxn ctx msg txn a dir))
      | _, _ => (⟨msg.id, .skipped, some "Missing amount or direction", none⟩, none)

/-- Accumulated loop state: the three counters, the detail list, and the
sequence of store calls made so far. -/
structure LoopState where
  inserted : ℕ
  skipped : ℕ
  errors : ℕ
  details : List Detail
  calls : List TransactionInsert
deriving DecidableEq, Repr

def initialLoopState : LoopState := ⟨0, 0, 0, [], []⟩

def ingestStep (ctx : IngestCtx) (parsedMap : ℤ → Option ParsedTransaction)
    (st : LoopState) (msg : SMSMessage) : LoopState :=
  let r := processMessage ctx parsedMap msg
  { inserted := st.inserted + (if r.1.status = .inserted then 1 else 0)
    skipped := st.skipped + (if r.1.status = .skipped then 1 else 0)
    errors := st.errors + (if r.1.status = .error then 1 else 0)
    details := st.details ++ [r.1]
    calls := st.calls ++ r.2.toList }

/-- The whole `for` loop of `/ingest` over the original message batch. -/
def ingestLoop (ctx : IngestCtx) (parsedMap : ℤ → Option ParsedTransaction)
    (messages : List SMSMessage) : LoopState :=
  messages.foldl (ingestStep ctx parsedMap) initialLoopState

/-- Run-status computation after the loop. -/
def runStatus (errors inserted : ℕ) : String :=
  if 0 < errors ∧ inserted = 0 then "failed"
  else if 0 < errors then "partial"
  else "success"

/-- The `IngestResponse` returned by `/ingest` (`total` is set from
`messages.length`). -/
structure IngestResponse where
  success : Bool
  inserted : ℕ
  skipped : ℕ
  errors : ℕ
  total : ℕ
  details : List Detail
deriving DecidableEq, Repr

def ingestResponse (ctx : IngestCtx) (parsedMap : ℤ → Option ParsedTransaction)
    (messages : List SMSMessage) : IngestResponse :=
  let r := ingestLoop ctx parsedMap messages
  ⟨true, r.inserted, r.skipped, r.errors, messages.length, r.details⟩

/-! ## Axio CSV import pipeline (`src/routes/import.ts`) -/

structure AxioRow where
  date : String
  time : String
  place : String
  amount : String
  direction : String
  account : String
  expense : String
  income : String
  category : String
  tags : Option String
  note : Option String
deriving DecidableEq, Repr

/-- The `transactionData` record built for one CSV row (after the
amount-positivity guard). -/
def buildAxioTxn (user_id : String) (categories : List Category) (row : AxioRow) :
    TransactionInsert :=
  let amount := parseAmount row.amount
  let direction := if jsToUpper (jsTrim row.direction) = "CR" then Direction.credit
                   else Direction.debit
  let acct := parseAccount row.account
  let slug := axioCategoryToSlug row.category
  let noteParts : List String :=
    (match row.tags with
     | some t => if jsTrim t ≠ "" ∧ t ≠ "" then [jsTrim t] else []
     | none => []) ++
    (match row.note with
     | some n => if jsTrim n ≠ "" ∧ n ≠ "" then [jsTrim n] else []
     | none => [])
  { user_id := user_id
    amount := amount
    direction := direction
    transacted_at := parseDateTime row.date row.time
    merchant := jsOrNullStr (some (jsTrim row.place))
    merchant_normalized := jsOrNullStr (some (jsTrim row.place))
    payment_method := acct.payment_method
    account_last4 := acct.account_last4
    bank_name := acct.bank_name
    reference_id := none
    raw_sms := none
    sms_id := none
    sms_sender := none
    source := "axio"
    category_id := getCategoryIdBySlug (some slug) categories
    notes := if noteParts = [] then none else some (String.intercalate " | " noteParts)
    original_amount := none
    original_currency := none
    is_expense := jsToLower (jsTrim row.expense) = "yes"
    is_income := jsToLower (jsTrim row.income) = "yes" }

/-- Import loop state; `errorDetails` is capped at 10 entries, `rowIndex` is
the 0-based loop index `i`. -/
structure ImportState where
  inserted : ℕ
  skipped : ℕ
  errors : ℕ
  errorDetails : List String
  calls : List TransactionInsert
  rowIndex : ℕ
deriving DecidableEq, Repr

def initialImportState : ImportState := ⟨0, 0, 0, [], [], 0⟩

/-- One iteration of the `/axio` row loop: a non-positive parsed amount is
skipped before any store interaction; otherwise the built record goes straight
to `supabase.from("transactions").insert` (no dedup reclassification on this
path). -/
def importStep (user_id : String) (categories : List Category)
    (store : TransactionInsert → StoreReply) (st : ImportState) (row : AxioRow) :
    ImportState :=
  let amount := parseAmount row.amount
  if amount ≤ 0 then
    { st with skipped := st.skipped + 1, rowIndex := st.rowIndex + 1 }
  else
    let t := buildAxioTxn user_id categories row
    match store t with
    | .ok =>
      { st with inserted := st.inserted + 1, calls := st.calls ++ [t],
                rowIndex := st.rowIndex + 1 }
    | .err _ msg =>
      { st with errors := st.errors + 1, calls := st.calls ++ [t],
                errorDetails :=
                  if st.errorDetails.length < 10 then
                    st.errorDetails ++ ["Row " ++ toString (st.rowIndex + 1) ++ ": " ++ msg]
                  else st.errorDetails,
                rowIndex := st.rowIndex + 1 }

def importLoop (user_id : String) (categories : List Category)
    (store : TransactionInsert → StoreReply) (rows : List AxioRow) : ImportState :=
  rows.foldl (importStep user_id categories store) initialImportState

/-! ## Supporting lemmas -/

theorem ratesFold_cons (init : String → Option ℚ) (e : String × JsVal)
    (rest : List (String × JsVal)) :
    ratesFold init (e :: rest) =
      ratesFold
        (match e.2 with
         | .num q =>
           if 0 < q then (fun k => if k = e.1 then some (1 / q) else init k) else init
         | .nonnum => init)
        rest := rfl

theorem ratesFold_not_mem (init : String → Option ℚ)
    (entries : List (String × JsVal)) (k : String)
    (h : k ∉ entries.map Prod.fst) :
    ratesFold init entries k = init k := by
  induction entries generalizing init with
  | nil => rfl
  | cons e rest ih =>
    simp only [List.map_cons, List.mem_cons, not_or] at h
    rw [ratesFold_cons, ih _ h.2]
    rcases e with ⟨c, v⟩
    rcases v with q | _
    · by_cases hq : 0 < q
      · simp only [hq, if_true]
        exact if_neg h.1
      · simp [hq]
    · rfl

theorem ratesFold_mem (init : String → Option ℚ)
    (entries : List (String × JsVal)) (F : String) (X : ℚ)
    (hnd : (entries.map Prod.fst).Nodup)
    (hmem : (F, JsVal.num X) ∈ entries) (hX : 0 < X) :
    ratesFold init entries F = some (1 / X) := by
  induction entries generalizing init with
  | nil => cases hmem
  | cons e rest ih =>
    simp only [List.map_cons, List.nodup_cons] at hnd
    rcases List.mem_cons.mp hmem with heq | hmem'
    · subst heq
      rw [ratesFold_cons]
      have hout : F ∉ rest.map Prod.fst := hnd.1
      rw [ratesFold_not_mem _ _ _ hout]
      simp [hX]
    · exact ih _ hnd.2 hmem'

theorem startsWithL_iff (n l : List Char) :
    startsWithL n l = true ↔ ∃ t, l = n ++ t := by
  induction n generalizing l with
  | nil => simp [startsWithL]
  | cons a as ih =>
    cases l with
    | nil => simp [startsWithL]
    | cons b bs =>
      simp only [startsWithL, Bool.and_eq_true, decide_eq_true_eq, ih,
        List.cons_append, List.cons.injEq]
      constructor
      · rintro ⟨rfl, t, rfl⟩
        exact ⟨t, rfl, rfl⟩
      · rintro ⟨t, rfl, rfl⟩
        exact ⟨rfl, t, rfl⟩

theorem hasSub_iff (n l : List Char) :
    hasSub n l = true ↔ ∃ p t, l = p ++ n ++ t := by
  induction l with
  | nil =>
    simp only [hasSub, List.isEmpty_iff]
    constructor
    · rintro rfl
      exact ⟨[], [], rfl⟩
    · rintro ⟨p, t, h⟩
      rcases List.append_eq_nil.mp h.symm with ⟨h1, h2⟩
      exact (List.append_eq_nil.mp h1).2
  | cons c cs ih =>
    simp only [hasSub, Bool.or_eq_true, startsWithL_iff, ih]
    constructor
    · rintro (⟨t, h⟩ | ⟨p, t, rfl⟩)
      · exact ⟨[], t, by simpa using h⟩
      · exact ⟨c :: p, t, rfl⟩
    · rintro ⟨p, t, h⟩
      cases p with
      | nil =>
        left
        exact ⟨t, by simpa using h⟩
      | cons x xs =>
        right
        rw [List.cons_append, List.cons_append] at h
        injection h with h1 h2
        exact ⟨xs, t, by simpa using h2⟩

theorem map_eq_append_decomp {α β : Type} (f : α → β) :
    ∀ (l : List α) (P Q : List β), l.map f = P ++ Q →
      ∃ p q, l = p ++ q ∧ p.map f = P ∧ q.map f = Q := by
  intro l P
  induction P generalizing l with
  | nil =>
    intro Q h
    exact ⟨[], l, rfl, rfl, h⟩
  | cons b P ih =>
    intro Q h
    cases l with
    | nil => simp at h
    | cons a as =>
      rw [List.map_cons, List.cons_append] at h
      injection h with h1 h2
      obtain ⟨p, q, rfl, hp, hq⟩ := ih as Q h2
      exact ⟨a :: p, q, rfl, by simp [h1, hp], hq⟩

theorem toLower_of_space {c : Char} (h : isSpaceChar c = true) :
    c.toLower = c := by
  simp only [isSpaceChar, Bool.or_eq_true, decide_eq_true_eq] at h
  rcases h with ((((h | h) | h) | h) | h) | h <;> subst h <;> decide

theorem not_space_of_toLower {c d : Char} (hd : c.toLower = d)
    (hnd : isSpaceChar d = false) : isSpaceChar c = false := by
  by_contra h
  rw [Bool.not_eq_false] at h
  rw [toLower_of_space h] at hd
  subst hd
  rw [h] at hnd
  cases hnd

theorem dropWhile_space_append {c : Char} {w t : List Char}
    (hc : isSpaceChar c = false) :
    ∀ p : List Char, ∃ p',
      (p ++ (c :: w) ++ t).dropWhile isSpaceChar = p' ++ (c :: w) ++ t := by
  intro p
  induction p with
  | nil =>
    refine ⟨[], ?_⟩
    simp [List.dropWhile_cons, hc]
  | cons a as ih =>
    by_cases ha : isSpaceChar a = true
    · obtain ⟨p', hp'⟩ := ih
      refine ⟨p', ?_⟩
      simpa [List.dropWhile_cons, ha] using hp'
    · rw [Bool.not_eq_true] at ha
      exact ⟨a :: as, by simp [List.dropWhile_cons, ha]⟩

/-- A contiguous block whose first and last characters are not whitespace
survives `trim`: it still occurs in the trimmed list. -/
theorem jsTrimL_keeps_block {c d : Char} {w v t p : List Char}
    (hc : isSpaceChar c = false) (hd : isSpaceChar d = false)
    (hrev : (c :: w).reverse = d :: v) :
    ∃ p' t', jsTrimL (p ++ (c :: w) ++ t) = p' ++ (c :: w) ++ t' := by
  have hshape : p ++ (c :: w) ++ t = p ++ (c :: (w ++ t)) := by simp
  obtain ⟨p1, hp1⟩ := dropWhile_space_append hc p (w := w) (t := t)
  unfold jsTrimL
  rw [hp1]
  have hrev2 : (p1 ++ (c :: w) ++ t).reverse
      = t.reverse ++ (d :: (v ++ p1.reverse)) := by
    rw [List.reverse_append, List.reverse_append, hrev]
    simp
  rw [hrev2]
  obtain ⟨q, hq⟩ := dropWhile_space_append hd t.reverse (w := v ++ p1.reverse) (t := [])
  have hq' : (t.reverse ++ (d :: (v ++ p1.reverse))).dropWhile isSpaceChar
      = q ++ (d :: (v ++ p1.reverse)) := by
    have := hq
    simpa using this
  rw [hq']
  refine ⟨p1, q.reverse, ?_⟩
  have hm : v.reverse ++ [d] = c :: w := by
    have h2 := congrArg List.reverse hrev
    simpa using h2.symm
  rw [← hm]
  simp

theorem processMessage_fst_sms_id (ctx : IngestCtx)
    (pm : ℤ → Option ParsedTransaction) (msg : SMSMessage) :
    ((processMessage ctx pm msg).1).sms_id = msg.id := by
  unfold processMessage
  split
  · rfl
  · split
    · rfl
    · split
      · split
        · rfl
        · split
          · rfl
          · rfl
      · rfl

theorem ingestStep_sum (ctx : IngestCtx) (pm : ℤ → Option ParsedTransaction)
    (st : LoopState) (msg : SMSMessage) :
    (ingestStep ctx pm st msg).inserted + (ingestStep ctx pm st msg).skipped
      + (ingestStep ctx pm st msg).errors
    = st.inserted + st.skipped + st.errors + 1 := by
  unfold ingestStep
  rcases hs : (processMessage ctx pm msg).1.status <;> simp [hs] <;> omega

theorem ingestStep_details_eq (ctx : IngestCtx) (pm : ℤ → Option ParsedTransaction)
    (st : LoopState) (msg : SMSMessage) :
    (ingestStep ctx pm st msg).details = st.details ++ [(processMessage ctx pm msg).1] :=
  rfl

theorem ingestLoop_invariant (ctx : IngestCtx) (pm : ℤ → Option ParsedTransaction) :
    ∀ (messages : List SMSMessage) (st : LoopState),
      ((messages.foldl (ingestStep ctx pm) st).inserted
          + (messages.foldl (ingestStep ctx pm) st).skipped
          + (messages.foldl (ingestStep ctx pm) st).errors
        = st.inserted + st.skipped + st.errors + messages.length) ∧
      (messages.foldl (ingestStep ctx pm) st).details.map Detail.sms_id
        = st.details.map Detail.sms_id ++ messages.map SMSMessage.id := by
  intro messages
  induction messages with
  | nil => intro st; simp
  | cons m ms ih =>
    intro st
    rw [List.foldl_cons]
    obtain ⟨h1, h2⟩ := ih (ingestStep ctx pm st m)
    constructor
    · simp only [List.length_cons]
      have h3 := ingestStep_sum ctx pm st m
      omega
    · rw [h2, ingestStep_details_eq]
      simp [processMessage_fst_sms_id]

/-! ## Witness fixtures: small concrete inputs used to instantiate the
hypotheses of the theorems below. -/

def msgW : SMSMessage := ⟨1, "HDFCBK", "Spent Rs 100 at Swiggy", some "2025-01-01T00:00:00Z"⟩

def txnW : ParsedTransaction :=
  ⟨1, true, some 100, none, some .debit, some "Swiggy", some "upi", none, none, none,
   some "food", none, none, none⟩

/-- Context whose store always reports a uniqueness conflict on the dedup key. -/
def ctxDup : IngestCtx :=
  ⟨"u1", [], fun _ => none, "2025-01-01T00:00:00Z", fun _ => .err "23505" "duplicate key"⟩

/-- Context whose store always accepts. -/
def ctxOk : IngestCtx :=
  ⟨"u1", [], fun _ => none, "2025-01-01T00:00:00Z", fun _ => .ok⟩

def entriesW : List (String × JsVal) := [("USD", .num 80), ("INR", .num 1)]

/-- A CSV row whose direction is `CR` but whose expense column says `Yes`. -/
def rowCRExpense : AxioRow :=
  ⟨"2025-02-02", "09:49 AM", "Employer", "100", "CR", "Kotak 3760", "Yes", "No",
   "SALARY", none, none⟩

/-- A CSV row whose amount parses to `0`. -/
def rowZeroAmount : AxioRow :=
  ⟨"2025-02-02", "09:49 AM", "Nothing", "0", "DR", "CASH Spends", "No", "No",
   "MISC", none, none⟩

/-! ## Claim theorems -/

/-- **C1** — On the SMS ingest path, when the transaction store rejects the
insert with a uniqueness conflict on the `(user_id, sms_id)` dedup key
(Postgres code `"23505"`), the per-message outcome is reclassified as success:
the `inserted` counter is incremented, `errors` (and `skipped`) are unchanged,
and the per-message detail entry has status `"inserted"` — so re-ingesting an
already-stored message is a no-op success, not an error. -/
theorem dedup_conflict_counted_as_inserted (ctx : IngestCtx)
    (pm : ℤ → Option ParsedTransaction) (st : LoopState) (msg : SMSMessage)
    (txn : ParsedTransaction) (a : ℚ) (dir : Direction) (m : String)
    (hpm : pm msg.id = some txn) (htr : txn.is_transaction = true)
    (ha : txn.amount = some a) (ha0 : a ≠ 0) (hdir : txn.direction = some dir)
    (hstore : ctx.store (buildSmsTxn ctx msg txn a dir) = .err "23505" m) :
    (ingestStep ctx pm st msg).inserted = st.inserted + 1 ∧
    (ingestStep ctx pm st msg).errors = st.errors ∧
    (ingestStep ctx pm st msg).skipped = st.skipped ∧
    (ingestStep ctx pm st msg).details = st.details ++
      [⟨msg.id, .inserted, none,
        some ⟨a, dir, jsOrNullStr txn.merchant, jsOrNullStr txn.category_slug⟩⟩] := by
  have hp : processMessage ctx pm msg =
      (⟨msg.id, .inserted, none,
        some ⟨a, dir, jsOrNullStr txn.merchant, jsOrNullStr txn.category_slug⟩⟩,
       some (buildSmsTxn ctx msg txn a dir)) := by
    unfold processMessage
    rw [hpm]
    simp [htr, ha, hdir, ha0, insertTransaction, hstore]
  simp [ingestStep, hp]

/-- Witness for C1 at a concrete message, candidate and conflicting store. -/
theorem dedup_conflict_counted_as_inserted_witness :
    (ingestStep ctxDup (buildParsedMap [txnW]) initialLoopState msgW).inserted = 0 + 1 ∧
    (ingestStep ctxDup (buildParsedMap [txnW]) initialLoopState msgW).errors = 0 ∧
    (ingestStep ctxDup (buildParsedMap [txnW]) initialLoopState msgW).skipped = 0 ∧
    (ingestStep ctxDup (buildParsedMap [txnW]) initialLoopState msgW).details = [] ++
      [⟨msgW.id, .inserted, none,
        some ⟨100, .debit, jsOrNullStr txnW.merchant, jsOrNullStr txnW.category_slug⟩⟩] :=
  dedup_conflict_counted_as_inserted ctxDup (buildParsedMap [txnW]) initialLoopState
    msgW txnW 100 .debit "duplicate key"
    (by decide) (by decide) (by decide) (by norm_num) (by decide) rfl

/-- **C2** — For every batch, the returned counts satisfy
`inserted + skipped + errors = total`, `total = messages.length`, and the
detail list has exactly one entry per input message, in input order (the
details' `sms_id` sequence equals the input id sequence). -/
theorem ingest_counts_conserved (ctx : IngestCtx)
    (pm : ℤ → Option ParsedTransaction) (messages : List SMSMessage) :
    (ingestResponse ctx pm messages).inserted + (ingestResponse ctx pm messages).skipped
        + (ingestResponse ctx pm messages).errors
      = (ingestResponse ctx pm messages).total ∧
    (ingestResponse ctx pm messages).total = messages.length ∧
    (ingestResponse ctx pm messages).details.length = messages.length ∧
    (ingestResponse ctx pm messages).details.map Detail.sms_id
      = messages.map SMSMessage.id := by
  obtain ⟨h1, h2⟩ := ingestLoop_invariant ctx pm messages initialLoopState
  refine ⟨?_, rfl, ?_, ?_⟩
  · simpa [ingestResponse, ingestLoop, initialLoopState] using h1
  · have := congrArg List.length h2
    simpa [ingestResponse, ingestLoop, initialLoopState] using this
  · simpa [ingestResponse, ingestLoop, initialLoopState] using h2

/-- **C3, counterexample** — the claim "on both paths `is_expense` is true only
when direction is debit" fails on the CSV import path: a row with direction
`"CR"` and expense column `"Yes"` yields a record with direction `credit` and
`is_expense = true`. -/
theorem csv_expense_flag_ignores_direction :
    (buildAxioTxn "u1" [] rowCRExpense).direction = Direction.credit ∧
    (buildAxioTxn "u1" [] rowCRExpense).is_expense = true := by
  exact ⟨rfl, rfl⟩

/-- **C3, amended** — On the SMS path the invariant holds: a record built by
`buildSmsTxn` has `is_expense = false` whenever its direction is credit and
`is_income = false` whenever its direction is debit.  On the CSV path the two
flags are taken verbatim from the row's expense/income columns (trimmed,
case-insensitive comparison with "yes"), independent of the row's direction,
so the invariant holds there only when the source columns agree with the
direction. -/
theorem expense_income_flag_derivation (ctx : IngestCtx) (msg : SMSMessage)
    (txn : ParsedTransaction) (a : ℚ) (dir : Direction)
    (u : String) (cats : List Category) (row : AxioRow) :
    ((buildSmsTxn ctx msg txn a dir).direction = Direction.credit →
      (buildSmsTxn ctx msg txn a dir).is_expense = false) ∧
    ((buildSmsTxn ctx msg txn a dir).direction = Direction.debit →
      (buildSmsTxn ctx msg txn a dir).is_income = false) ∧
    (buildAxioTxn u cats row).is_expense = decide (jsToLower (jsTrim row.expense) = "yes") ∧
    (buildAxioTxn u cats row).is_income = decide (jsToLower (jsTrim row.income) = "yes") := by
  refine ⟨?_, ?_, rfl, rfl⟩
  · intro h
    have hdir : dir = Direction.credit := h
    subst hdir
    simp [buildSmsTxn]
  · intro h
    have hdir : dir = Direction.debit := h
    subst hdir
    simp [buildSmsTxn]

/-- Witness for the amended C3, discharging the direction hypotheses at
concrete credit- and debit-direction records. -/
theorem expense_income_flag_derivation_witness :
    (buildSmsTxn ctxOk msgW txnW 100 Direction.credit).is_expense = false ∧
    (buildSmsTxn ctxOk msgW txnW 100 Direction.debit).is_income = false :=
  ⟨(expense_income_flag_derivation ctxOk msgW txnW 100 .credit "u1" [] rowCRExpense).1 rfl,
   (expense_income_flag_derivation ctxOk msgW txnW 100 .debit "u1" [] rowCRExpense).2.1 rfl⟩

/-- **C4** — The rate-object built from a source table expressing
"1 INR = X foreign" stores, for every currency `F` whose entry is a number
`X > 0`, the inverted rate `1/X`, and stores INR at rate `1` (whether or not
the source table itself lists INR — if it does, a consistent table lists it at
rate 1). -/
theorem fetched_rates_are_inverted (entries : List (String × JsVal))
    (F : String) (X : ℚ)
    (hnd : (entries.map Prod.fst).Nodup)
    (hmem : (F, JsVal.num X) ∈ entries) (hX : 0 < X)
    (hINR : ("INR", JsVal.num 1) ∈ entries ∨ "INR" ∉ entries.map Prod.fst) :
    ratesOfEntries entries F = some (1 / X) ∧
    ratesOfEntries entries "INR" = some 1 := by
  constructor
  · exact ratesFold_mem _ entries F X hnd hmem hX
  · rcases hINR with h | h
    · simpa using ratesFold_mem _ entries "INR" 1 hnd h one_pos
    · rw [ratesOfEntries, ratesFold_not_mem _ _ _ h]
      simp

/-- Witness for C4 on a two-entry source table. -/
theorem fetched_rates_are_inverted_witness :
    ratesOfEntries entriesW "USD" = some (1 / 80) ∧
    ratesOfEntries entriesW "INR" = some 1 :=
  fetched_rates_are_inverted entriesW "USD" 80 (by decide) (by decide)
    (by norm_num) (Or.inl (by decide))

/-- **C9** — Converting an amount already in the base currency is the exact
identity: `convertToINR a "INR" rates = (a, 1)` for every positive `a` and
**every** rate table (independence from `rates` shows no lookup, fetch or
rounding takes place). -/
theorem convert_base_currency_identity (a : ℚ) (rates : String → Option ℚ)
    (_h : 0 < a) : convertToINR a "INR" rates = (a, 1) := by
  have hU : jsToUpper "INR" = "INR" := rfl
  simp [convertToINR, hU]

/-- Witness for C9 at `a = 5` and an empty rate table. -/
theorem convert_base_currency_identity_witness :
    0 < (5 : ℚ) ∧ convertToINR 5 "INR" (fun _ => none) = (5, 1) :=
  ⟨by norm_num, convert_base_currency_identity 5 (fun _ => none) (by norm_num)⟩

/-- **C10** — A candidate passing the required-field checks but carrying no
currency (absent or empty) is treated as base-currency INR: `isForeignCurrency`
is false both on the raw field and on the defaulted `"INR"` value, the built
record's amount is the oracle's amount unchanged, and both provenance fields
are null; the message still flows to the store (`processMessage` issues the
store call with exactly this record). -/
theorem missing_currency_treated_as_inr (ctx : IngestCtx)
    (pm : ℤ → Option ParsedTransaction) (msg : SMSMessage)
    (txn : ParsedTransaction) (a : ℚ) (dir : Direction)
    (hpm : pm msg.id = some txn) (htr : txn.is_transaction = true)
    (ha : txn.amount = some a) (ha0 : a ≠ 0) (hdir : txn.direction = some dir)
    (hc : txn.currency = none ∨ txn.currency = some "") :
    isForeignCurrency txn.currency = false ∧
    isForeignCurrency (some (jsOrStr txn.currency "INR")) = false ∧
    (processMessage ctx pm msg).2 = some (buildSmsTxn ctx msg txn a dir) ∧
    (buildSmsTxn ctx msg txn a dir).amount = a ∧
    (buildSmsTxn ctx msg txn a dir).original_amount = none ∧
    (buildSmsTxn ctx msg txn a dir).original_currency = none := by
  have hcur : jsOrStr txn.currency "INR" = "INR" := by
    rcases hc with h | h <;> simp [h, jsOrStr]
  have hfor : isForeignCurrency (some "INR") = false := by decide
  refine ⟨?_, ?_, ?_, ?_, ?_, ?_⟩
  · rcases hc with h | h <;> simp [h, isForeignCurrency]
  · rw [hcur]; exact hfor
  · unfold processMessage
    rw [hpm]
    simp [htr, ha, hdir, ha0]
    split <;> rfl
  · simp [buildSmsTxn, hcur, hfor]
  · simp [buildSmsTxn, hcur, hfor]
  · simp [buildSmsTxn, hcur, hfor]

/-- Witness for C10 at a concrete candidate with no currency field. -/
theorem missing_currency_treated_as_inr_witness :
    isForeignCurrency txnW.currency = false ∧
    isForeignCurrency (some (jsOrStr txnW.currency "INR")) = false ∧
    (processMessage ctxOk (buildParsedMap [txnW]) msgW).2
      = some (buildSmsTxn ctxOk msgW txnW 100 .debit) ∧
    (buildSmsTxn ctxOk msgW txnW 100 .debit).amount = 100 ∧
    (buildSmsTxn ctxOk msgW txnW 100 .debit).original_amount = none ∧
    (buildSmsTxn ctxOk msgW txnW 100 .debit).original_currency = none :=
  missing_currency_treated_as_inr ctxOk (buildParsedMap [txnW]) msgW txnW 100 .debit
    (by decide) (by decide) (by decide) (by norm_num) (by decide) (Or.inl (by decide))

/-- **C8, counterexample** — the claim "an ingest call with an empty messages
list is rejected by request-shape validation" is false: the schema places no
minimum length on `messages`, so the empty batch passes validation. -/
theorem empty_batch_passes_validation :
    ingestRequestValid ⟨[], "k"⟩ = true := by decide

/-- **C8, amended** — An ingest request with an empty messages list and a
non-empty credential **passes** request-shape validation (the schema requires
only `api_key` non-empty); the per-message loop then runs zero iterations,
leaving all counters at zero, no details and no store calls, and the computed
run status is `"success"`. -/
theorem empty_batch_accepted_and_noop (k : String) (hk : k ≠ "")
    (ctx : IngestCtx) (pm : ℤ → Option ParsedTransaction) :
    ingestRequestValid ⟨[], k⟩ = true ∧
    ingestLoop ctx pm [] = initialLoopState ∧
    runStatus (ingestLoop ctx pm []).errors (ingestLoop ctx pm []).inserted
      = "success" := by
  refine ⟨?_, rfl, rfl⟩
  rcases k with ⟨data⟩
  have hd : data ≠ [] := by
    intro h
    subst h
    exact hk rfl
  simp [ingestRequestValid, String.length]
  exact Nat.one_le_iff_ne_zero.mpr (by simpa using hd)

/-- Witness for the amended C8 at a concrete credential and context. -/
theorem empty_batch_accepted_and_noop_witness :
    ingestRequestValid ⟨[], "k"⟩ = true ∧
    ingestLoop ctxOk (buildParsedMap [txnW]) [] = initialLoopState ∧
    runStatus (ingestLoop ctxOk (buildParsedMap [txnW]) []).errors
      (ingestLoop ctxOk (buildParsedMap [txnW]) []).inserted = "success" :=
  empty_batch_accepted_and_noop "k" (by decide) ctxOk (buildParsedMap [txnW])

/-- **C6** — `parseAmount` strips separators/quotes/whitespace and returns the
absolute value of the decimal prefix: `"1,234.50" ↦ 1234.5`,
`"'-13.0" ↦ 13`, `"" ↦ 0`; and a CSV row whose parsed amount is `≤ 0` is
counted as skipped by the import loop with no store call (the state is updated
only in its `skipped` counter and row index; in particular `calls` is
unchanged, so nothing is inserted). -/
theorem parseAmount_examples_and_nonpositive_skipped (u : String)
    (cats : List Category) (store : TransactionInsert → StoreReply)
    (st : ImportState) (row : AxioRow)
    (hle : parseAmount row.amount ≤ 0) :
    parseAmount "1,234.50" = 1234.5 ∧
    parseAmount "'-13.0" = 13 ∧
    parseAmount "" = 0 ∧
    importStep u cats store st row
      = { st with skipped := st.skipped + 1, rowIndex := st.rowIndex + 1 } := by
  have h1 : (1234.5 : ℚ) = mkRat 123450 100 := by
    rw [Rat.mkRat_eq_div]; norm_num
  refine ⟨by rw [h1]; decide, by decide, rfl, ?_⟩
  simp [importStep, hle]

/-- Witness for C6 at a concrete zero-amount row. -/
theorem parseAmount_examples_and_nonpositive_skipped_witness :
    parseAmount "1,234.50" = 1234.5 ∧
    parseAmount "'-13.0" = 13 ∧
    parseAmount "" = 0 ∧
    importStep "u1" [] (fun _ => .ok) initialImportState rowZeroAmount
      = { initialImportState with
          skipped := initialImportState.skipped + 1
          rowIndex := initialImportState.rowIndex + 1 } :=
  parseAmount_examples_and_nonpositive_skipped "u1" [] (fun _ => .ok)
    initialImportState rowZeroAmount (by decide)

/-- **C7 (code bug)** — On a well-formed time the composition works
(`"09:49 AM"` combines to `"...T09:49:00+05:30"`), but a malformed time does
**not** default to midnight: none of the operations in the `try` body can
throw on string inputs, so the midnight `catch` branch is unreachable, and
`"banana"` produces the malformed timestamp
`"2025-02-02TNaN:undefined:00+05:30"` instead of
`"2025-02-02T00:00:00+05:30"`. -/
theorem parseDateTime_malformed_not_midnight :
    parseDateTime "2025-02-02" "09:49 AM" = "2025-02-02T09:49:00+05:30" ∧
    parseDateTime "2025-02-02" "banana" = "2025-02-02TNaN:undefined:00+05:30" ∧
    parseDateTime "2025-02-02" "banana" ≠ "2025-02-02T00:00:00+05:30" := by
  refine ⟨by decide, by decide, by decide⟩

/-- **C5** — `parseAccount` evaluates its rules in priority order with first
match winning: `"HDFC credit 5487"` is classified as a card,
`"Kotak 3760"` as a UPI/bank account, any input containing `"cash"` anywhere
(case-insensitively) yields `{other, null, null}` regardless of the later
rules, and an input matching none of the rules (stated via the model's own
rule predicates on the trimmed input, as the code applies them) yields all
three fields null. -/
theorem parseAccount_priority (s u : String)
    (hcash : hasSub "cash".toList (s.toList.map Char.toLower) = true)
    (hu1 : hasSub "cash".toList ((jsTrimL u.toList).map Char.toLower) = false)
    (hu2 : hasSub "amazon pay".toList ((jsTrimL u.toList).map Char.toLower) = false)
    (hu3 : hasSub "simpl".toList ((jsTrimL u.toList).map Char.toLower) = false)
    (hu4 : matchAccountPattern (some "credit".toList) (jsTrimL u.toList) = none)
    (hu5 : matchAccountPattern (some "debit".toList) (jsTrimL u.toList) = none)
    (hu6 : matchAccountPattern none (jsTrimL u.toList) = none) :
    parseAccount "HDFC credit 5487" = ⟨some "card", some "5487", some "HDFC Bank"⟩ ∧
    parseAccount "Kotak 3760" = ⟨some "upi", some "3760", some "Kotak Bank"⟩ ∧
    parseAccount s = ⟨some "other", none, none⟩ ∧
    parseAccount u = ⟨none, none, none⟩ := by
  refine ⟨by decide, by decide, ?_, ?_⟩
  · -- the cash rule fires on the trimmed input whenever "cash" occurs anywhere
    have hsne : s ≠ "" := by
      intro h
      subst h
      simp [hasSub] at hcash
    obtain ⟨P, T, hM⟩ := (hasSub_iff _ _).mp hcash
    obtain ⟨p, rest, hL, hp, hrest⟩ :=
      map_eq_append_decomp Char.toLower s.toList P ("cash".toList ++ T)
        (by simpa [List.append_assoc] using hM)
    obtain ⟨w, t, hrest2, hw, ht⟩ :=
      map_eq_append_decomp Char.toLower rest "cash".toList T hrest
    have hcl : "cash".toList = ['c', 'a', 's', 'h'] := by decide
    rw [hcl] at hw
    rcases w with _ | ⟨x1, w⟩
    · simp at hw
    rcases w with _ | ⟨x2, w⟩
    · simp at hw
    rcases w with _ | ⟨x3, w⟩
    · simp at hw
    rcases w with _ | ⟨x4, w⟩
    · simp at hw
    rcases w with _ | ⟨x5, w⟩
    swap
    · simp at hw
    simp only [List.map_cons, List.map_nil, List.cons.injEq, and_true] at hw
    obtain ⟨e1, e2, e3, e4⟩ := hw
    have hx1 : isSpaceChar x1 = false := not_space_of_toLower e1 (by decide)
    have hx4 : isSpaceChar x4 = false := not_space_of_toLower e4 (by decide)
    have hLfull : s.toList = p ++ (x1 :: [x2, x3, x4]) ++ t := by
      rw [hL, hrest2]
      simp
    obtain ⟨p', t', htrim⟩ := jsTrimL_keeps_block hx1 hx4
      (w := [x2, x3, x4]) (v := [x3, x2, x1]) (t := t) (p := p) (by simp)
    have hcash2 : hasSub "cash".toList ((jsTrimL s.toList).map Char.toLower) = true := by
      rw [hLfull, htrim]
      refine (hasSub_iff _ _).mpr ⟨p'.map Char.toLower, t'.map Char.toLower, ?_⟩
      rw [hcl]
      simp [e1, e2, e3, e4]
    rw [parseAccount, if_neg hsne]
    simp only [hcash2, if_true]
  · by_cases hu : u = ""
    · subst hu
      rfl
    · rw [parseAccount, if_neg hu]
      simp only [hu1, hu2, hu3, hu4, hu5, hu6, Bool.false_eq_true, if_false]

/-- Witness for C5: a concrete cash-containing input and a concrete input
matching no rule. -/
theorem parseAccount_priority_witness :
    parseAccount "HDFC credit 5487" = ⟨some "card", some "5487", some "HDFC Bank"⟩ ∧
    parseAccount "Kotak 3760" = ⟨some "upi", some "3760", some "Kotak Bank"⟩ ∧
    parseAccount "My CASH wallet" = ⟨some "other", none, none⟩ ∧
    parseAccount "no matching rule here" = ⟨none, none, none⟩ :=
  parseAccount_priority "My CASH wallet" "no matching rule here"
    (by decide) (by decide) (by decide) (by decide) (by decide) (by decide) (by decide)

end MTWallet
